import Mathlib

/-!
Verification development for the sparse_coding repository.

The synthetic data generators, the autoencoder training step, the
dictionary-comparison metrics and the checkpoint-loading logic of
src/run.py and src/autoencoders/learned_dict.py are shallowly embedded
below.  Random tensors that the Python code samples (uniform draws,
Gaussian CDF values, random indices, noise) are passed to the embedded
functions as explicit arguments; float arithmetic is modelled over the
rationals where no square root is needed and over the reals elsewhere.
-/

namespace SparseCoding

open Finset

/-! ### Synthetic dataset generation (src/run.py, generate_rand_dataset /
generate_correlated_dataset)

The samplers obtained from torch.rand / MultivariateNormal.sample /
torch.randint are inputs of the embedded functions. -/

/-- Number of nonzero entries of a finitely indexed vector
(torch count_nonzero along a row). -/
def countNonzero {n : ℕ} (v : Fin n → ℚ) : ℕ :=
  (univ.filter (fun j => v j ≠ 0)).card

/-- Output of a dataset generator: the feature bank, the sparse codes and
the activation batch, mirroring the Python triple return value. -/
structure DatasetOut (n d B : ℕ) where
  feats : Fin n → Fin d → ℚ
  codes : Fin B → Fin n → ℚ
  data : Fin B → Fin d → ℚ

/-- Embeds generate_rand_dataset (src/run.py lines 245-269).
dataset_thresh, dataset_values and feature_strengths are the torch.rand
draws.  A component is active when its uniform draw is at most its
inclusion probability; active components keep their sampled value, the
rest are zeroed; the batch is the strength-weighted code matrix times the
feature bank.  There is no repair step for all-zero code rows here. -/
def generate_rand_dataset {n d B : ℕ}
    (feature_probs : Fin n → ℚ) (feats : Fin n → Fin d → ℚ)
    (dataset_thresh dataset_values feature_strengths : Fin B → Fin n → ℚ) :
    DatasetOut n d B :=
  let dataset_codes : Fin B → Fin n → ℚ := fun b j =>
    if dataset_thresh b j ≤ feature_probs j then dataset_values b j else 0
  { feats := feats
    codes := dataset_codes
    data := fun b i => ∑ j, (dataset_codes b j * feature_strengths b j) * feats j i }

/-- Embeds the component-probability computation of
generate_correlated_dataset (src/run.py lines 285-296): the Gaussian-CDF
values are decayed and then rescaled by frac_nonzero / mean so that the
mean of the probability vector equals frac_nonzero.  No clipping to [0,1]
is performed. -/
def correlated_component_probs {n : ℕ}
    (cdf : Fin n → ℚ) (decay : Fin n → ℚ) (frac_nonzero : ℚ) : Fin n → ℚ :=
  let component_probs : Fin n → ℚ := fun j => cdf j * decay j
  let mean_prob : ℚ := (∑ j, component_probs j) / n
  let scaler : ℚ := frac_nonzero / mean_prob
  fun j => component_probs j * scaler

/-- Embeds generate_correlated_dataset (src/run.py lines 272-317).
cdf holds the standard-normal CDF of the correlated Gaussian sample;
rand_index holds the torch.randint draws used by the zero-row repair.
A row whose thresholded code is entirely zero gets the component at its
random index forced to 1.0. -/
def generate_correlated_dataset {n d B : ℕ}
    (cdf : Fin n → ℚ) (feats : Fin n → Fin d → ℚ) (frac_nonzero : ℚ)
    (decay : Fin n → ℚ)
    (dataset_thresh dataset_values feature_strengths : Fin B → Fin n → ℚ)
    (rand_index : Fin B → Fin n) :
    DatasetOut n d B :=
  let component_probs := correlated_component_probs cdf decay frac_nonzero
  let codes0 : Fin B → Fin n → ℚ := fun b j =>
    if dataset_thresh b j ≤ component_probs j then dataset_values b j else 0
  let dataset_codes : Fin B → Fin n → ℚ := fun b =>
    if countNonzero (codes0 b) = 0
    then Function.update (codes0 b) (rand_index b) 1
    else codes0 b
  { feats := feats
    codes := dataset_codes
    data := fun b i => ∑ j, (dataset_codes b j * feature_strengths b j) * feats j i }

/-- Helper: a row repaired by writing the coefficient 1 at some index has
at least one nonzero entry. -/
theorem one_le_countNonzero_update {n : ℕ} (f : Fin n → ℚ) (i : Fin n) :
    1 ≤ countNonzero (Function.update f i 1) := by
  have hi : i ∈ univ.filter (fun j => Function.update f i 1 j ≠ 0) := by
    simp [Function.update_same]
  exact Finset.card_pos.mpr ⟨i, hi⟩

/-- Claim C2, counterexample: in independent mode (generate_rand_dataset)
there is no zero-row repair.  With one component of inclusion probability 0
and a uniform draw of 1/2, the returned code row is entirely zero. -/
theorem c2_rand_dataset_zero_row :
    countNonzero ((generate_rand_dataset (n := 1) (d := 1) (B := 1)
      (fun _ => 0) (fun _ _ => 1) (fun _ _ => 1/2) (fun _ _ => 1/3)
      (fun _ _ => 1/4)).codes 0) = 0 := by
  simp only [generate_rand_dataset, countNonzero]
  rw [Finset.card_eq_zero, Finset.filter_eq_empty_iff]
  intro j _
  norm_num

/-- Claim C2, amended: only generate_correlated_dataset repairs all-zero
code rows; there, every returned code row has at least one nonzero entry
(either the thresholding already produced one, or the component at the
sampled random index was forced to 1.0), and the repair is a total
in-place fixup, not an error path. -/
theorem c2_correlated_rows_nonzero {n d B : ℕ}
    (cdf : Fin n → ℚ) (feats : Fin n → Fin d → ℚ) (frac_nonzero : ℚ)
    (decay : Fin n → ℚ)
    (dataset_thresh dataset_values feature_strengths : Fin B → Fin n → ℚ)
    (rand_index : Fin B → Fin n) (b : Fin B) :
    1 ≤ countNonzero ((generate_correlated_dataset cdf feats frac_nonzero
      decay dataset_thresh dataset_values feature_strengths rand_index).codes b) := by
  dsimp only [generate_correlated_dataset]
  split_ifs with h
  · exact one_le_countNonzero_update _ _
  · exact Nat.one_le_iff_ne_zero.mpr h

/-- Claim C3: the rescaled component probabilities of
generate_correlated_dataset are used directly as Bernoulli thresholds with
no clipping.  With CDF values (9/10, 1/10), no decay and target sparsity
3/5, the probability of the first component is rescaled to 27/25, which exceeds
1 and is not brought back into [0,1]. -/
theorem c3_component_prob_above_one :
    correlated_component_probs (n := 2) ![9/10, 1/10] ![1, 1] (3/5) 0 = 27/25 ∧
    ¬ correlated_component_probs (n := 2) ![9/10, 1/10] ![1, 1] (3/5) 0 ≤ 1 := by
  constructor
  · norm_num [correlated_component_probs, Fin.sum_univ_two]
  · norm_num [correlated_component_probs, Fin.sum_univ_two]

/-! ### Learned dictionaries (src/autoencoders/learned_dict.py)

Tensors are embedded as real-valued functions; torch.norm(w, 2, dim=-1)
is the rowwise L2 norm and torch.clamp(x, 1e-8) is max x 1e-8. -/

/-- Rowwise L2 norm: torch.norm(v, 2, dim=-1) for a single row. -/
noncomputable def l2norm {d : ℕ} (v : Fin d → ℝ) : ℝ :=
  Real.sqrt (∑ j, v j ^ 2)

/-- The untied SAE parameter record (UntiedSAE.__init__). -/
structure UntiedSAE (n d : ℕ) where
  encoder : Fin n → Fin d → ℝ
  decoder : Fin n → Fin d → ℝ
  encoder_bias : Fin n → ℝ

/-- Embeds UntiedSAE.get_learned_dict (learned_dict.py lines 32-34):
decoder rows divided by their L2 norms clamped below at 1e-8. -/
noncomputable def UntiedSAE.get_learned_dict {n d : ℕ} (m : UntiedSAE n d) :
    Fin n → Fin d → ℝ :=
  fun i j => m.decoder i j / max (l2norm (m.decoder i)) (1 / 10 ^ 8)

/-- State-passing form of UntiedSAE.get_learned_dict: the method body
computes a fresh tensor from self.decoder and assigns no field of self,
so the post-state is the unchanged receiver. -/
noncomputable def UntiedSAE.get_learned_dict_run {n d : ℕ} (m : UntiedSAE n d) :
    (Fin n → Fin d → ℝ) × UntiedSAE n d :=
  (m.get_learned_dict, m)

/-- Embeds UntiedSAE.encode (learned_dict.py lines 41-45). -/
noncomputable def UntiedSAE.encode {n d B : ℕ} (m : UntiedSAE n d)
    (batch : Fin B → Fin d → ℝ) : Fin B → Fin n → ℝ :=
  fun b i => max ((∑ j, m.encoder i j * batch b j) + m.encoder_bias i) 0

/-- The tied SAE parameter record (TiedSAE.__init__). -/
structure TiedSAE (n d : ℕ) where
  encoder : Fin n → Fin d → ℝ
  encoder_bias : Fin n → ℝ
  norm_encoder : Bool

/-- Embeds TiedSAE.get_learned_dict (learned_dict.py lines 53-55). -/
noncomputable def TiedSAE.get_learned_dict {n d : ℕ} (m : TiedSAE n d) :
    Fin n → Fin d → ℝ :=
  fun i j => m.encoder i j / max (l2norm (m.encoder i)) (1 / 10 ^ 8)

/-- Embeds TiedSAE.encode (learned_dict.py lines 61-71), including the
optional norm_encoder renormalization with the same 1e-8 clamp. -/
noncomputable def TiedSAE.encode {n d B : ℕ} (m : TiedSAE n d)
    (batch : Fin B → Fin d → ℝ) : Fin B → Fin n → ℝ :=
  let encoder : Fin n → Fin d → ℝ :=
    if m.norm_encoder
    then fun i j => m.encoder i j / max (l2norm (m.encoder i)) (1 / 10 ^ 8)
    else m.encoder
  fun b i => max ((∑ j, encoder i j * batch b j) + m.encoder_bias i) 0

/-- Helper: the L2 norm of a row divided elementwise by a nonnegative
constant is the norm divided by that constant. -/
theorem l2norm_div_const {d : ℕ} (v : Fin d → ℝ) (M : ℝ) (hM : 0 ≤ M) :
    l2norm (fun j => v j / M) = l2norm v / M := by
  unfold l2norm
  have h1 : (∑ j, (v j / M) ^ 2) = (∑ j, v j ^ 2) / M ^ 2 := by
    rw [Finset.sum_div]
    exact Finset.sum_congr rfl (fun j _ => by rw [div_pow])
  rw [h1, Real.sqrt_div (by positivity), Real.sqrt_sq hM]

/-- Helper: dividing a row by its clamped norm yields a unit-norm row
whenever the norm of the row is at least the clamp floor. -/
theorem l2norm_clamped_normalize {d : ℕ} (v : Fin d → ℝ) (ε : ℝ) (hε : 0 < ε)
    (h : ε ≤ l2norm v) :
    l2norm (fun j => v j / max (l2norm v) ε) = 1 := by
  have hpos : 0 < l2norm v := lt_of_lt_of_le hε h
  rw [max_eq_left h, l2norm_div_const v _ (le_of_lt hpos),
    div_self (ne_of_gt hpos)]

/-- Claim C9: reading the dictionary of an untied model returns the
decoder rows renormalized (each row divided by its norm clamped at 1e-8,
hence unit-norm whenever the row norm is at least 1e-8), and the stored
decoder is unchanged by the read: the post-state decoder is identical to
the pre-state decoder. -/
theorem c9_get_learned_dict_pure {n d : ℕ} (m : UntiedSAE n d) :
    (m.get_learned_dict_run).2.decoder = m.decoder ∧
    (∀ i j, (m.get_learned_dict_run).1 i j
      = m.decoder i j / max (l2norm (m.decoder i)) (1 / 10 ^ 8)) ∧
    (∀ i, (1 : ℝ) / 10 ^ 8 ≤ l2norm (m.decoder i) →
      l2norm ((m.get_learned_dict_run).1 i) = 1) := by
  refine ⟨rfl, fun i j => rfl, fun i hi => ?_⟩
  exact l2norm_clamped_normalize (m.decoder i) _ (by norm_num) hi

/-- Witness for C9 at a concrete model with decoder row (1): the read
dictionary row has unit norm. -/
theorem c9_get_learned_dict_pure_witness :
    l2norm (((UntiedSAE.mk (fun _ _ => 0) (fun _ _ => 1) (fun _ => 0) :
      UntiedSAE 1 1).get_learned_dict_run).1 0) = 1 := by
  apply (c9_get_learned_dict_pure
    (UntiedSAE.mk (fun _ _ => 0) (fun _ _ => 1) (fun _ => 0))).2.2 0
  have h1 : l2norm (fun _ : Fin 1 => (1 : ℝ)) = 1 := by
    simp [l2norm, Fin.sum_univ_one]
  show (1 : ℝ) / 10 ^ 8 ≤ l2norm (fun _ : Fin 1 => (1 : ℝ))
  rw [h1]
  norm_num

/-- Claim C10: both get_learned_dict variants are total with positive
divisors (the clamped norms are at least 1e-8, so no division by zero),
and an all-zero row is returned as an all-zero row. -/
theorem c10_get_learned_dict_total {n d : ℕ} (u : UntiedSAE n d)
    (t : TiedSAE n d) (i : Fin n) :
    0 < max (l2norm (u.decoder i)) (1 / 10 ^ 8) ∧
    0 < max (l2norm (t.encoder i)) (1 / 10 ^ 8) ∧
    (u.decoder i = 0 → u.get_learned_dict i = 0) ∧
    (t.encoder i = 0 → t.get_learned_dict i = 0) := by
  refine ⟨?_, ?_, fun hu => ?_, fun ht => ?_⟩
  · exact lt_of_lt_of_le (by norm_num) (le_max_right _ _)
  · exact lt_of_lt_of_le (by norm_num) (le_max_right _ _)
  · funext j
    simp only [UntiedSAE.get_learned_dict, hu, Pi.zero_apply, zero_div]
  · funext j
    simp only [TiedSAE.get_learned_dict, ht, Pi.zero_apply, zero_div]

/-- Witness for C10 at concrete models with all-zero weight rows: the
returned dictionary rows are all-zero (not NaN or undefined). -/
theorem c10_get_learned_dict_total_witness :
    (UntiedSAE.mk 0 0 0 : UntiedSAE 1 1).get_learned_dict 0 = 0 ∧
    (TiedSAE.mk 0 0 false : TiedSAE 1 1).get_learned_dict 0 = 0 :=
  ⟨(c10_get_learned_dict_total (UntiedSAE.mk 0 0 0) (TiedSAE.mk 0 0 false) 0).2.2.1 rfl,
   (c10_get_learned_dict_total (UntiedSAE.mk 0 0 0) (TiedSAE.mk 0 0 false) 0).2.2.2 rfl⟩

/-! ### Ground-truth scoring (src/run.py, cosine_sim and
mean_max_cosine_similarity) -/

/-- Dot product of two rows. -/
noncomputable def dot {d : ℕ} (v w : Fin d → ℝ) : ℝ := ∑ k, v k * w k

/-- The normalize lambda of cosine_sim (src/run.py line 388): each row is
divided by its L2 norm, with no epsilon clamp. -/
noncomputable def rowNormalize {m d : ℕ} (vecs : Fin m → Fin d → ℝ) :
    Fin m → Fin d → ℝ :=
  fun i k => vecs i k / l2norm (vecs i)

/-- Embeds cosine_sim (src/run.py lines 379-392): the matrix product of
the row-normalized inputs, entry (i, j) being the cosine similarity of
row i of vecs1 with row j of vecs2. -/
noncomputable def cosine_sim {m p d : ℕ} (vecs1 : Fin m → Fin d → ℝ)
    (vecs2 : Fin p → Fin d → ℝ) : Fin m → Fin p → ℝ :=
  fun i j => dot (rowNormalize vecs1 i) (rowNormalize vecs2 j)

/-- numpy max along axis 1 for one row of a matrix (junk value 0 for an
empty row, which numpy would reject and the claims never hit). -/
noncomputable def rowMax {p : ℕ} (f : Fin p → ℝ) : ℝ :=
  if h : (univ : Finset (Fin p)).Nonempty then univ.sup' h f else 0

/-- Embeds mean_max_cosine_similarity (src/run.py lines 395-400): for each
ground-truth feature the maximum cosine similarity to any learned row,
averaged over the ground-truth features. -/
noncomputable def mean_max_cosine_similarity {m p d : ℕ}
    (ground_truth_features : Fin m → Fin d → ℝ)
    (learned_dictionary : Fin p → Fin d → ℝ) : ℝ :=
  (∑ i, rowMax (fun j =>
    cosine_sim ground_truth_features learned_dictionary i j)) / m

/-- Helper: the maximum of a row is invariant under permuting the entries of the
row. -/
theorem rowMax_comp_perm {p : ℕ} (f : Fin p → ℝ) (σ : Equiv.Perm (Fin p)) :
    rowMax (fun j => f (σ j)) = rowMax f := by
  unfold rowMax
  split_ifs with h
  · apply le_antisymm
    · exact Finset.sup'_le _ _ (fun j _ => Finset.le_sup' f (Finset.mem_univ (σ j)))
    · refine Finset.sup'_le _ _ (fun j _ => ?_)
      have h2 := Finset.le_sup' (fun k => f (σ k)) (Finset.mem_univ (σ.symm j))
      simpa using h2
  · rfl

/-- Claim C7: mean_max_cosine_similarity is invariant under permuting the
rows of the learned dictionary (stated, as in the spec, for dictionaries
with nonzero rows). -/
theorem c7_mmcs_perm_invariant {m p d : ℕ}
    (ground_truth_features : Fin m → Fin d → ℝ)
    (learned_dictionary : Fin p → Fin d → ℝ)
    (_hrows : ∀ j, learned_dictionary j ≠ 0) (σ : Equiv.Perm (Fin p)) :
    mean_max_cosine_similarity ground_truth_features
      (fun j => learned_dictionary (σ j))
    = mean_max_cosine_similarity ground_truth_features learned_dictionary := by
  unfold mean_max_cosine_similarity
  congr 1
  refine Finset.sum_congr rfl (fun i _ => ?_)
  exact rowMax_comp_perm
    (fun j => cosine_sim ground_truth_features learned_dictionary i j) σ

/-- Witness for C7 at a concrete one-row dictionary and the identity
permutation. -/
theorem c7_mmcs_perm_invariant_witness :
    mean_max_cosine_similarity (fun (_ : Fin 1) (_ : Fin 1) => (1 : ℝ))
      (fun j => (fun (_ : Fin 1) (_ : Fin 1) => (1 : ℝ)) (Equiv.refl (Fin 1) j))
    = mean_max_cosine_similarity (fun (_ : Fin 1) (_ : Fin 1) => (1 : ℝ))
      (fun (_ : Fin 1) (_ : Fin 1) => (1 : ℝ)) :=
  c7_mmcs_perm_invariant (fun _ _ => 1) (fun _ _ => 1)
    (fun _ h => one_ne_zero (congrFun h 0)) (Equiv.refl (Fin 1))

/-! ### Cross-dictionary comparison (src/run.py, run_mmcs_with_larger)

The scipy linear_sum_assignment call is external; the one-to-one
assignments it returns (one per compared pair of dictionaries, matching
every row of the smaller dictionary) are inputs of the embedding, and
optimality of an assignment is the predicate IsOptimalAssignment. -/

/-- torch.nn.functional.cosine_similarity of two rows:
x1 dot x2 divided by max of the product of the L2 norms and eps = 1e-8. -/
noncomputable def torchCosineSim {d : ℕ} (v w : Fin d → ℝ) : ℝ :=
  dot v w / max (l2norm v * l2norm w) (1 / 10 ^ 8)

/-- The cost matrix of run_mmcs_with_larger (src/run.py lines 871-875):
pairwise cosine similarities converted to a minimization problem as
1 - similarity. -/
noncomputable def costMatrix {m p d : ℕ} (smaller : Fin m → Fin d → ℝ)
    (larger : Fin p → Fin d → ℝ) : Fin m → Fin p → ℝ :=
  fun i j => 1 - torchCosineSim (smaller i) (larger j)

/-- scipy.optimize.linear_sum_assignment returns an injective assignment
minimizing the total cost among all injective assignments. -/
def IsOptimalAssignment {m p : ℕ} (cost : Fin m → Fin p → ℝ)
    (σ : Fin m → Fin p) : Prop :=
  Function.Injective σ ∧
    ∀ τ : Fin m → Fin p, Function.Injective τ →
      (∑ i, cost i (σ i)) ≤ ∑ i, cost i (τ i)

/-- The recovered per-pair similarities (src/run.py line 879):
1 - cost at the matched positions. -/
noncomputable def matchedSims {m p d : ℕ} (smaller : Fin m → Fin d → ℝ)
    (larger : Fin p → Fin d → ℝ) (σ : Fin m → Fin p) : Fin m → ℝ :=
  fun i => 1 - costMatrix smaller larger i (σ i)

/-- One entry of av_mmcs_with_larger_dicts (src/run.py line 880): the mean
matched similarity. -/
noncomputable def av_mmcs_entry {m p d : ℕ} (smaller : Fin m → Fin d → ℝ)
    (larger : Fin p → Fin d → ℝ) (σ : Fin m → Fin p) : ℝ :=
  (∑ i, matchedSims smaller larger σ i) / m

/-- One entry of feats_above_threshold (src/run.py lines 881-882).  The
source rebinds the name threshold to 0.9 immediately before the
comparison, so the threshold argument of the function is shadowed and unused;
the let below mirrors that rebinding. -/
noncomputable def feats_above_entry {m p d : ℕ} (smaller : Fin m → Fin d → ℝ)
    (larger : Fin p → Fin d → ℝ) (σ : Fin m → Fin p) (threshold : ℝ) : ℝ :=
  ((univ.filter (fun i => (9 : ℝ) / 10 < matchedSims smaller larger σ i)).card : ℝ)
    / m * 100

/-- Claim C4: comparing a unit-norm dictionary against an identical copy
of itself through the Hungarian matching yields mean matched similarity
exactly 1, and the reported fraction of matched pairs above the threshold
is 100 percent for any passed threshold at most 1. -/
theorem c4_self_comparison {m d : ℕ} (D : Fin m → Fin d → ℝ) (hm : 0 < m)
    (hD : ∀ i, l2norm (D i) = 1) (σ : Fin m → Fin m)
    (hσ : IsOptimalAssignment (costMatrix D D) σ)
    (threshold : ℝ) (_ht : threshold ≤ 1) :
    av_mmcs_entry D D σ = 1 ∧ feats_above_entry D D σ threshold = 100 := by
  have hs : ∀ i, (∑ k, D i k ^ 2) = 1 := by
    intro i
    have h0 : (0 : ℝ) ≤ ∑ k, D i k ^ 2 := by positivity
    have h1 : Real.sqrt (∑ k, D i k ^ 2) = 1 := hD i
    nlinarith [Real.sq_sqrt h0]
  have hcos : ∀ i j, torchCosineSim (D i) (D j) = dot (D i) (D j) := by
    intro i j
    unfold torchCosineSim
    rw [hD i, hD j, one_mul,
      max_eq_left (by norm_num : (1 : ℝ) / 10 ^ 8 ≤ 1), div_one]
  have hself : ∀ i, dot (D i) (D i) = 1 := by
    intro i
    unfold dot
    rw [← hs i]
    exact Finset.sum_congr rfl (fun k _ => by ring)
  have hle : ∀ i j, dot (D i) (D j) ≤ 1 := by
    intro i j
    have hcs := Finset.sum_mul_sq_le_sq_mul_sq univ (D i) (D j)
    rw [hs i, hs j] at hcs
    unfold dot
    nlinarith [hcs]
  have hcost0 : ∀ i j, 0 ≤ costMatrix D D i j := by
    intro i j
    unfold costMatrix
    rw [hcos i j]
    linarith [hle i j]
  have hid : (∑ i, costMatrix D D i i) = 0 := by
    refine Finset.sum_eq_zero (fun i _ => ?_)
    unfold costMatrix
    rw [hcos i i, hself i]
    ring
  have hsum0 : (∑ i, costMatrix D D i (σ i)) = 0 := by
    have hub := hσ.2 id (fun a b h => h)
    simp only [id] at hub
    rw [hid] at hub
    have hlb : 0 ≤ ∑ i, costMatrix D D i (σ i) :=
      Finset.sum_nonneg (fun i _ => hcost0 i (σ i))
    linarith
  have hterm : ∀ i, costMatrix D D i (σ i) = 0 := by
    intro i
    have := (Finset.sum_eq_zero_iff_of_nonneg
      (fun i _ => hcost0 i (σ i))).mp hsum0
    exact this i (Finset.mem_univ i)
  have hmatched : ∀ i, matchedSims D D σ i = 1 := by
    intro i
    unfold matchedSims
    rw [hterm i]
    ring
  have hmne : (m : ℝ) ≠ 0 := Nat.cast_ne_zero.mpr hm.ne'
  constructor
  · unfold av_mmcs_entry
    rw [Finset.sum_congr rfl (fun i _ => hmatched i)]
    simp [Finset.card_univ, hmne]
  · unfold feats_above_entry
    have hfilter :
        (univ.filter (fun i : Fin m => (9 : ℝ) / 10 < matchedSims D D σ i))
          = univ := by
      refine Finset.filter_true_of_mem (fun i _ => ?_)
      rw [hmatched i]
      norm_num
    rw [hfilter]
    rw [Finset.card_univ, Fintype.card_fin]
    field_simp

/-- Witness for C4 at the one-row unit dictionary, the identity
assignment (optimal since it is the only assignment) and threshold 1. -/
theorem c4_self_comparison_witness :
    av_mmcs_entry (fun (_ : Fin 1) (_ : Fin 1) => (1 : ℝ))
      (fun _ _ => 1) (fun i => i) = 1 ∧
    feats_above_entry (fun (_ : Fin 1) (_ : Fin 1) => (1 : ℝ))
      (fun _ _ => 1) (fun i => i) 1 = 100 := by
  refine c4_self_comparison (fun _ _ => 1) Nat.one_pos ?_ (fun i => i)
    ⟨fun a b h => h, fun τ _ => ?_⟩ 1 le_rfl
  · intro i
    simp [l2norm, Fin.sum_univ_one]
  · have : τ = fun i => i := funext (fun i => Subsingleton.elim _ _)
    rw [this]

/-- Similarity of the rows (1, 0) and (3/5, 4/5): both are unit rows, so
the torch cosine similarity is their dot product 3/5. -/
theorem torchCosineSim_concrete :
    torchCosineSim ![(1 : ℝ), 0] ![(3 : ℝ)/5, 4/5] = 3/5 := by
  have h1 : l2norm ![(1 : ℝ), 0] = 1 := by
    unfold l2norm
    rw [Fin.sum_univ_two]
    rw [show (![(1 : ℝ), 0] 0 ^ 2 + ![(1 : ℝ), 0] 1 ^ 2) = 1 by
      simp [Matrix.cons_val_zero, Matrix.cons_val_one, Matrix.head_cons]]
    exact Real.sqrt_one
  have h2 : l2norm ![(3 : ℝ)/5, 4/5] = 1 := by
    unfold l2norm
    rw [Fin.sum_univ_two]
    rw [show (![(3 : ℝ)/5, 4/5] 0 ^ 2 + ![(3 : ℝ)/5, 4/5] 1 ^ 2) = 1 by
      simp [Matrix.cons_val_zero, Matrix.cons_val_one, Matrix.head_cons]
      norm_num]
    exact Real.sqrt_one
  unfold torchCosineSim dot
  rw [h1, h2, Fin.sum_univ_two, one_mul,
    max_eq_left (by norm_num : (1 : ℝ) / 10 ^ 8 ≤ 1)]
  simp [Matrix.cons_val_zero, Matrix.cons_val_one, Matrix.head_cons]

/-- Claim C5: the threshold argument of the comparison is ignored.  At a
concrete pair of one-row dictionaries whose matched similarity is 3/5 and
a passed threshold of 3/10, the matched similarity exceeds the passed
threshold, yet the reported above-threshold fraction is 0 (the hard-coded
0.9 was used), contradicting the claim that the passed threshold decides
the reported fraction. -/
theorem c5_threshold_shadowed :
    matchedSims (fun (_ : Fin 1) => ![(1 : ℝ), 0])
      (fun _ => ![(3 : ℝ)/5, 4/5]) (fun i => i) 0 = 3/5 ∧
    (3 : ℝ)/10 < 3/5 ∧
    feats_above_entry (fun (_ : Fin 1) => ![(1 : ℝ), 0])
      (fun _ => ![(3 : ℝ)/5, 4/5]) (fun i => i) (3/10) = 0 := by
  have hms : ∀ i : Fin 1, matchedSims (fun (_ : Fin 1) => ![(1 : ℝ), 0])
      (fun _ => ![(3 : ℝ)/5, 4/5]) (fun i => i) i = 3/5 := by
    intro i
    unfold matchedSims costMatrix
    rw [torchCosineSim_concrete]
    ring
  refine ⟨hms 0, by norm_num, ?_⟩
  unfold feats_above_entry
  rw [show (univ.filter (fun i : Fin 1 => (9 : ℝ) / 10 <
      matchedSims (fun (_ : Fin 1) => ![(1 : ℝ), 0])
        (fun _ => ![(3 : ℝ)/5, 4/5]) (fun i => i) i)) = ∅ by
    rw [Finset.filter_eq_empty_iff]
    intro i _
    rw [hms i]
    norm_num]
  simp

/-! ### The sweep-level comparison loop (src/run.py lines 853-888) -/

/-- The iteration order of run_mmcs_with_larger:
itertools.product(range(n_l1_coefs), range(n_dict_sizes)). -/
def mmcsKeyList (L S : ℕ) : List (Fin L × Fin S) :=
  (List.finRange L).flatMap (fun a => (List.finRange S).map (fun b => (a, b)))

/-- Every (l1 index, dict-size index) pair is visited by the loop. -/
theorem mem_mmcsKeyList {L S : ℕ} (p : Fin L × Fin S) : p ∈ mmcsKeyList L S := by
  rcases p with ⟨a, b⟩
  unfold mmcsKeyList
  rw [List.mem_flatMap]
  exact ⟨a, List.mem_finRange a, List.mem_map.mpr ⟨b, List.mem_finRange b, rfl⟩⟩

/-- Helper: looking up a key after a left fold of guarded single-key
writes whose written values depend only on the key: the key holds its
value when it was visited and its guard holds, and the initial value
otherwise. -/
theorem foldl_dwrite_lookup {κ α : Type} [DecidableEq κ] {C : κ → Prop}
    [DecidablePred C] (val : (q : κ) → C q → α) (l : List κ) (init : κ → α)
    (p : κ) :
    (l.foldl (fun acc q =>
      if h : C q then Function.update acc q (val q h) else acc) init) p
    = if h : p ∈ l ∧ C p then val p h.2 else init p := by
  induction l generalizing init with
  | nil => simp
  | cons q rest ih =>
    rw [List.foldl_cons, ih]
    by_cases hpr : p ∈ rest ∧ C p
    · rw [dif_pos hpr, dif_pos ⟨List.mem_cons_of_mem q hpr.1, hpr.2⟩]
    · rw [dif_neg hpr]
      by_cases hq : C q
      · rw [dif_pos hq]
        by_cases hpq : p = q
        · subst hpq
          rw [Function.update_same, dif_pos ⟨List.mem_cons_self p rest, hq⟩]
        · rw [Function.update_noteq hpq, dif_neg (fun hc => by
            rcases List.mem_cons.mp hc.1 with h | h
            · exact hpq h
            · exact hpr ⟨h, hc.2⟩)]
      · rw [dif_neg hq, dif_neg (fun hc => by
          rcases List.mem_cons.mp hc.1 with h | h
          · exact hq (h ▸ hc.2)
          · exact hpr ⟨h, hc.2⟩)]

/-- Embeds run_mmcs_with_larger (src/run.py lines 853-888).  Dictionaries
are indexed by (l1 index, dict-size index), with the row count given by
sizes; assignments holds the scipy matchings, one per adjacent size pair.
Both output matrices start as zeros; the loop skips the final size index
(the guard k+1 < S is the negation of the
dict_size_ndx == n_dict_sizes - 1 test of the source) and writes the slot (l1, k) from
the dictionaries at size indices k and k+1. -/
noncomputable def run_mmcs_with_larger {L S d : ℕ} (sizes : Fin S → ℕ)
    (learned_dicts : (l1 : Fin L) → (k : Fin S) → Fin (sizes k) → Fin d → ℝ)
    (assignments : (l1 : Fin L) → (k : Fin S) → (h : k.val + 1 < S) →
      Fin (sizes k) → Fin (sizes ⟨k.val + 1, h⟩))
    (threshold : ℝ) :
    (Fin L → Fin S → ℝ) × (Fin L → Fin S → ℝ) :=
  let final := (mmcsKeyList L S).foldl
    (fun acc p =>
      if h : p.2.val + 1 < S then
        Function.update acc p
          (av_mmcs_entry (learned_dicts p.1 p.2)
            (learned_dicts p.1 ⟨p.2.val + 1, h⟩) (assignments p.1 p.2 h),
           feats_above_entry (learned_dicts p.1 p.2)
            (learned_dicts p.1 ⟨p.2.val + 1, h⟩) (assignments p.1 p.2 h)
            threshold)
      else acc)
    (fun _ => (0, 0))
  (fun a b => (final (a, b)).1, fun a b => (final (a, b)).2)

/-- Claim C6: the comparison runs only for adjacent size indices.  For
every l1 index and size index k with a successor, the output slot (l1, k)
is computed from the dictionaries at size indices k and k+1 (and no
others appear); the slot of the final size index is never written and
keeps its initial value 0 in both output matrices. -/
theorem c6_adjacent_sizes_only {L S d : ℕ} (sizes : Fin S → ℕ)
    (learned_dicts : (l1 : Fin L) → (k : Fin S) → Fin (sizes k) → Fin d → ℝ)
    (assignments : (l1 : Fin L) → (k : Fin S) → (h : k.val + 1 < S) →
      Fin (sizes k) → Fin (sizes ⟨k.val + 1, h⟩))
    (threshold : ℝ) (l1 : Fin L) (k : Fin S) :
    (∀ h : k.val + 1 < S,
      (run_mmcs_with_larger sizes learned_dicts assignments threshold).1 l1 k
        = av_mmcs_entry (learned_dicts l1 k)
            (learned_dicts l1 ⟨k.val + 1, h⟩) (assignments l1 k h) ∧
      (run_mmcs_with_larger sizes learned_dicts assignments threshold).2 l1 k
        = feats_above_entry (learned_dicts l1 k)
            (learned_dicts l1 ⟨k.val + 1, h⟩) (assignments l1 k h) threshold) ∧
    (¬ k.val + 1 < S →
      (run_mmcs_with_larger sizes learned_dicts assignments threshold).1 l1 k = 0 ∧
      (run_mmcs_with_larger sizes learned_dicts assignments threshold).2 l1 k = 0) := by
  have hlookup := foldl_dwrite_lookup
    (C := fun p : Fin L × Fin S => p.2.val + 1 < S)
    (fun p h =>
      (av_mmcs_entry (learned_dicts p.1 p.2)
        (learned_dicts p.1 ⟨p.2.val + 1, h⟩) (assignments p.1 p.2 h),
       feats_above_entry (learned_dicts p.1 p.2)
        (learned_dicts p.1 ⟨p.2.val + 1, h⟩) (assignments p.1 p.2 h)
        threshold))
    (mmcsKeyList L S) (fun _ => (0, 0)) (l1, k)
  constructor
  · intro h
    simp only [run_mmcs_with_larger]
    rw [hlookup, dif_pos ⟨mem_mmcsKeyList (l1, k), h⟩]
    exact ⟨rfl, rfl⟩
  · intro h
    simp only [run_mmcs_with_larger]
    rw [hlookup, dif_neg (fun hc => h hc.2)]
    exact ⟨rfl, rfl⟩

/-- Witness for C6 on a 1-by-2 sweep grid of one-row dictionaries: the
slot of the first size index holds the adjacent comparison, the slot of
the final size index stays 0 in both matrices. -/
theorem c6_adjacent_sizes_only_witness :
    (run_mmcs_with_larger (L := 1) (d := 1) (fun _ : Fin 2 => 1)
      (fun _ _ _ _ => (1 : ℝ)) (fun _ _ _ i => i) (9/10)).1 0 0
      = av_mmcs_entry (fun (_ : Fin 1) (_ : Fin 1) => (1 : ℝ))
          (fun _ _ => 1) (fun i => i) ∧
    (run_mmcs_with_larger (L := 1) (d := 1) (fun _ : Fin 2 => 1)
      (fun _ _ _ _ => (1 : ℝ)) (fun _ _ _ i => i) (9/10)).1 0 1 = 0 ∧
    (run_mmcs_with_larger (L := 1) (d := 1) (fun _ : Fin 2 => 1)
      (fun _ _ _ _ => (1 : ℝ)) (fun _ _ _ i => i) (9/10)).2 0 1 = 0 := by
  have h0 := (c6_adjacent_sizes_only (L := 1) (d := 1) (fun _ : Fin 2 => 1)
    (fun _ _ _ _ => (1 : ℝ)) (fun _ _ _ i => i) (9/10) 0 0).1
    (by norm_num)
  have h1 := (c6_adjacent_sizes_only (L := 1) (d := 1) (fun _ : Fin 2 => 1)
    (fun _ _ _ _ => (1 : ℝ)) (fun _ _ _ i => i) (9/10) 0 1).2
    (by norm_num)
  exact ⟨h0.1, h1.1, h1.2⟩

/-! ### Configuration handling of run_real_data_model (src/run.py
lines 943-1009): model-name dispatch and checkpoint loading. -/

/-- The two recognized host-model families of run_real_data_model. -/
inductive ModelKind
  | hookedTransformer
  | nanoGPT
deriving DecidableEq

/-- Embeds the model-name dispatch (src/run.py lines 946-959): gpt2 and
the pythia model load a HookedTransformer, nanoGPT loads a GPT, and any
other name raises ValueError("Model name not recognised"). -/
def selectModel (model_name : String) : Except String ModelKind :=
  if model_name = ("gpt2") ∨ model_name = ("EleutherAI/pythia-70m-deduped")
  then Except.ok ModelKind.hookedTransformer
  else if model_name = ("nanoGPT") then Except.ok ModelKind.nanoGPT
  else Except.error ("Model name not recognised")

/-- The fields of a checkpointed AutoEncoder consulted by the loader:
activation_size, l1_coef and the dict-size dimension of the decoder weight. -/
structure AEMeta where
  activation_size : ℕ
  l1_coef : ℚ
  dict_size : ℕ
deriving DecidableEq

/-- A sweep cell either keeps its freshly initialized autoencoder or is
replaced by a matching checkpoint. -/
inductive CellModel
  | fresh
  | loaded (ae : AEMeta)
deriving DecidableEq

/-- Embeds the checkpoint-loading loop (src/run.py lines 997-1009): a
checkpoint whose activation size differs from the configured activation
dimension is reported with a print and skipped (continue); one whose l1
coefficient and dict size both occur in the sweep ranges replaces the
grid cell at their indices; anything else is reported as unmatched.  No
branch raises. -/
def load_autoencoders (activation_dim : ℕ) (l1_range : List ℚ)
    (dict_sizes : List ℕ) (loaded : List (List AEMeta))
    (grid : ℕ → ℕ → CellModel) : ℕ → ℕ → CellModel :=
  loaded.foldl (fun g lst => lst.foldl (fun g ae =>
    if ae.activation_size ≠ activation_dim then g
    else if ae.l1_coef ∈ l1_range ∧ ae.dict_size ∈ dict_sizes then
      fun i j =>
        if i = l1_range.indexOf ae.l1_coef ∧ j = dict_sizes.indexOf ae.dict_size
        then CellModel.loaded ae else g i j
    else g) g) grid

/-- The configuration prefix of run_real_data_model as one run: an
unrecognized model name aborts with the ValueError; otherwise the
checkpoint loader runs and the setup continues normally. -/
def modelSetup (model_name : String) (activation_dim : ℕ)
    (l1_range : List ℚ) (dict_sizes : List ℕ) (loaded : List (List AEMeta))
    (grid : ℕ → ℕ → CellModel) :
    Except String (ModelKind × (ℕ → ℕ → CellModel)) :=
  match selectModel model_name with
  | Except.error e => Except.error e
  | Except.ok k =>
      Except.ok (k, load_autoencoders activation_dim l1_range dict_sizes loaded grid)

/-- Claim C8, counterexample: a loaded checkpoint whose activation size
(4) differs from the configured activation dimension (8) does not stop
the run with an error.  The setup returns normally with the grid
unchanged (the mismatched checkpoint is merely skipped). -/
theorem c8_mismatch_does_not_raise :
    modelSetup ("gpt2") 8 [1] [16] [[AEMeta.mk 4 1 16]]
      (fun _ _ => CellModel.fresh)
    = Except.ok (ModelKind.hookedTransformer, fun _ _ => CellModel.fresh) := by
  rfl

/-- Claim C8, amended: an unrecognized model name fails fast with the
descriptive ValueError; a checkpoint with a mismatched activation
dimension is only warned about and skipped (the grid keeps the freshly
initialized cell), and the run continues normally — the loader never
raises for a recognized model name. -/
theorem c8_config_error_handling :
    (∀ model_name : String, model_name ≠ ("gpt2") →
      model_name ≠ ("EleutherAI/pythia-70m-deduped") →
      model_name ≠ ("nanoGPT") →
      selectModel model_name = Except.error ("Model name not recognised")) ∧
    (∀ (activation_dim : ℕ) (l1_range : List ℚ) (dict_sizes : List ℕ)
      (ae : AEMeta) (grid : ℕ → ℕ → CellModel),
      ae.activation_size ≠ activation_dim →
      load_autoencoders activation_dim l1_range dict_sizes [[ae]] grid = grid) ∧
    (∀ (activation_dim : ℕ) (l1_range : List ℚ) (dict_sizes : List ℕ)
      (loaded : List (List AEMeta)) (grid : ℕ → ℕ → CellModel),
      modelSetup ("gpt2") activation_dim l1_range dict_sizes loaded grid
        = Except.ok (ModelKind.hookedTransformer,
            load_autoencoders activation_dim l1_range dict_sizes loaded grid)) := by
  refine ⟨fun name h1 h2 h3 => ?_, fun ad l1s ds ae g h => ?_, fun ad l1s ds l g => ?_⟩
  · unfold selectModel
    rw [if_neg (by simp [h1, h2]), if_neg h3]
  · simp only [load_autoencoders, List.foldl_cons, List.foldl_nil]
    rw [if_pos h]
  · rfl

/-- Witness for C8 at a concrete unrecognized name and a concrete
mismatched checkpoint. -/
theorem c8_config_error_handling_witness :
    selectModel ("llama") = Except.error ("Model name not recognised") ∧
    load_autoencoders 8 [] [] [[AEMeta.mk 4 1 16]] (fun _ _ => CellModel.fresh)
      = (fun _ _ => CellModel.fresh) :=
  ⟨c8_config_error_handling.1 ("llama") (by decide) (by decide) (by decide),
   c8_config_error_handling.2.1 8 [] [] (AEMeta.mk 4 1 16) _ (by decide)⟩

/-! ### The AutoEncoder and one iteration of the synthetic training loop
(src/run.py: AutoEncoder lines 352-372, run_single_go lines 454-476)

torch layout: encoder weight is (n_dict_components, activation_size),
decoder weight is (activation_size, n_dict_components); a dictionary
element is a column of the decoder weight.  Autograd and optim.Adam are
the host framework; the backward pass is embedded by its closed-form
gradients for this linear-ReLU-linear model (with the torch conventions:
the ReLU derivative and the derivative of abs are 0 at 0), and the Adam
step by its defaults beta1 = 0.9, beta2 = 0.999, eps = 1e-8. -/

/-- The AutoEncoder parameter tensors. -/
structure AEParams (d n : ℕ) where
  encW : Fin n → Fin d → ℝ
  encB : Fin n → ℝ
  decW : Fin d → Fin n → ℝ

/-- One column of the decoder weight: one dictionary element. -/
noncomputable def decCol {d n : ℕ} (W : Fin d → Fin n → ℝ) (j : Fin n) :
    Fin d → ℝ :=
  fun i => W i j

/-- nn.functional.normalize(w, dim=0) (src/run.py line 369): every column
divided by its L2 norm clamped below at the default eps 1e-12. -/
noncomputable def normalizeCols {d n : ℕ} (W : Fin d → Fin n → ℝ) :
    Fin d → Fin n → ℝ :=
  fun i j => W i j / max (l2norm (decCol W j)) (1 / 10 ^ 12)

/-- ReLU. -/
noncomputable def relu (x : ℝ) : ℝ := max x 0

/-- Encoder pre-activations: the encoder Linear layer with bias. -/
noncomputable def preActs {d n B : ℕ} (encW : Fin n → Fin d → ℝ)
    (encB : Fin n → ℝ) (X : Fin B → Fin d → ℝ) : Fin B → Fin n → ℝ :=
  fun b j => (∑ i, encW j i * X b i) + encB j

/-- The codes c of AutoEncoder.forward: ReLU of the pre-activations. -/
noncomputable def codesOf {d n B : ℕ} (encW : Fin n → Fin d → ℝ)
    (encB : Fin n → ℝ) (X : Fin B → Fin d → ℝ) : Fin B → Fin n → ℝ :=
  fun b j => relu (preActs encW encB X b j)

/-- The decoder Linear layer (no bias). -/
noncomputable def decodeWith {d n B : ℕ} (decW : Fin d → Fin n → ℝ)
    (c : Fin B → Fin n → ℝ) : Fin B → Fin d → ℝ :=
  fun b i => ∑ j, decW i j * c b j

/-- Embeds AutoEncoder.forward (src/run.py lines 366-372): compute the
codes, overwrite decoder.weight.data in place with its column-normalized
value, decode with the normalized weight, and return (x_hat, c) together
with the post-forward parameters.  The decoder overwrite is the only
mutation performed by forward. -/
noncomputable def forwardAE {d n B : ℕ} (p : AEParams d n)
    (X : Fin B → Fin d → ℝ) :
    (Fin B → Fin d → ℝ) × (Fin B → Fin n → ℝ) × AEParams d n :=
  (decodeWith (normalizeCols p.decW) (codesOf p.encW p.encB X),
   codesOf p.encW p.encB X,
   AEParams.mk p.encW p.encB (normalizeCols p.decW))

/-- The reconstruction loss torch.nn.MSELoss()(batch, x_hat): squared
error averaged over all B * d entries. -/
noncomputable def mseLoss {d B : ℕ} (X xhat : Fin B → Fin d → ℝ) : ℝ :=
  (∑ b, ∑ i, (X b i - xhat b i) ^ 2) / ((B : ℝ) * (d : ℝ))

/-- The sparsity penalty l1_alpha * torch.norm(c, 1, dim=1).mean(). -/
noncomputable def l1Loss {n B : ℕ} (l1_alpha : ℝ) (c : Fin B → Fin n → ℝ) : ℝ :=
  l1_alpha * (∑ b, ∑ j, |c b j|) / (B : ℝ)

/-- Gradient of the total loss in the reconstruction:
2 (x_hat - x) / (B d). -/
noncomputable def gradWrtXhat {d B : ℕ} (X xhat : Fin B → Fin d → ℝ) :
    Fin B → Fin d → ℝ :=
  fun b i => 2 * (xhat b i - X b i) / ((B : ℝ) * (d : ℝ))

/-- Gradient in the decoder weight, taken at the normalized value that
forward wrote in place (so that value is what Adam updates). -/
noncomputable def gradWrtDecW {d n B : ℕ} (dXhat : Fin B → Fin d → ℝ)
    (c : Fin B → Fin n → ℝ) : Fin d → Fin n → ℝ :=
  fun i j => ∑ b, dXhat b i * c b j

/-- Gradient in the codes: backprop through the decoder Linear plus the
L1 term (the torch derivative of abs is sign, with sign 0 = 0). -/
noncomputable def gradWrtCodes {d n B : ℕ} (l1_alpha : ℝ)
    (dXhat : Fin B → Fin d → ℝ) (decW : Fin d → Fin n → ℝ)
    (c : Fin B → Fin n → ℝ) : Fin B → Fin n → ℝ :=
  fun b j => (∑ i, dXhat b i * decW i j) + l1_alpha * Real.sign (c b j) / (B : ℝ)

/-- Backprop through the ReLU: derivative 1 where the pre-activation is
positive, 0 elsewhere. -/
noncomputable def gradWrtPreActs {n B : ℕ} (dC z : Fin B → Fin n → ℝ) :
    Fin B → Fin n → ℝ :=
  fun b j => dC b j * (if 0 < z b j then 1 else 0)

/-- Gradient in the encoder weight. -/
noncomputable def gradWrtEncW {d n B : ℕ} (dZ : Fin B → Fin n → ℝ)
    (X : Fin B → Fin d → ℝ) : Fin n → Fin d → ℝ :=
  fun j i => ∑ b, dZ b j * X b i

/-- Gradient in the encoder bias. -/
noncomputable def gradWrtEncB {d n B : ℕ} (dZ : Fin B → Fin n → ℝ)
    (_X : Fin B → Fin d → ℝ) : Fin n → ℝ :=
  fun j => ∑ b, dZ b j

/-- One elementwise torch.optim.Adam update with the default
hyperparameters (beta1 = 0.9, beta2 = 0.999, eps = 1e-8) and bias
correction; t counts completed steps including this one.  Returns the new
parameter value and both updated moments. -/
noncomputable def adamUpdate (lr : ℝ) (t : ℕ) (theta m v g : ℝ) :
    ℝ × ℝ × ℝ :=
  (theta - lr * ((9/10 * m + (1 - 9/10) * g) / (1 - (9/10 : ℝ) ^ t))
      / (Real.sqrt ((999/1000 * v + (1 - 999/1000) * g ^ 2)
          / (1 - (999/1000 : ℝ) ^ t)) + 1 / 10 ^ 8),
   9/10 * m + (1 - 9/10) * g,
   999/1000 * v + (1 - 999/1000) * g ^ 2)

/-- Model parameters together with the Adam optimizer state (first and
second moments per parameter tensor, and the shared step count). -/
structure TrainState (d n : ℕ) where
  params : AEParams d n
  mEncW : Fin n → Fin d → ℝ
  vEncW : Fin n → Fin d → ℝ
  mEncB : Fin n → ℝ
  vEncB : Fin n → ℝ
  mDecW : Fin d → Fin n → ℝ
  vDecW : Fin d → Fin n → ℝ
  stepCount : ℕ

/-- Fresh optimizer state: torch initializes both Adam moments to zeros. -/
noncomputable def initTrainState {d n : ℕ} (p : AEParams d n) : TrainState d n :=
  ⟨p, fun _ _ => 0, fun _ _ => 0, fun _ => 0, fun _ => 0,
   fun _ _ => 0, fun _ _ => 0, 0⟩

/-- The noisy batch of one loop iteration (src/run.py line 458); the
randn_like draw is the noise argument. -/
noncomputable def stepInput {d B : ℕ} (noise_level : ℝ)
    (batch noise : Fin B → Fin d → ℝ) : Fin B → Fin d → ℝ :=
  fun b i => batch b i + noise_level * noise b i

/-- The decoder value produced inside the forward pass of one loop
iteration: the in-place column normalization of the stored weight. -/
noncomputable def forwardDec {d n : ℕ} (s : TrainState d n) :
    Fin d → Fin n → ℝ :=
  normalizeCols s.params.decW

/-- The codes of one loop iteration. -/
noncomputable def stepCodes {d n B : ℕ} (s : TrainState d n)
    (X : Fin B → Fin d → ℝ) : Fin B → Fin n → ℝ :=
  codesOf s.params.encW s.params.encB X

/-- The reconstruction of one loop iteration. -/
noncomputable def stepXhat {d n B : ℕ} (s : TrainState d n)
    (X : Fin B → Fin d → ℝ) : Fin B → Fin d → ℝ :=
  decodeWith (forwardDec s) (stepCodes s X)

/-- The reconstruction gradient of one loop iteration. -/
noncomputable def stepDXhat {d n B : ℕ} (s : TrainState d n)
    (X : Fin B → Fin d → ℝ) : Fin B → Fin d → ℝ :=
  gradWrtXhat X (stepXhat s X)

/-- The decoder-weight gradient of one loop iteration. -/
noncomputable def stepGDecW {d n B : ℕ} (s : TrainState d n)
    (X : Fin B → Fin d → ℝ) : Fin d → Fin n → ℝ :=
  gradWrtDecW (stepDXhat s X) (stepCodes s X)

/-- The pre-activation gradient of one loop iteration. -/
noncomputable def stepDZ {d n B : ℕ} (l1_alpha : ℝ) (s : TrainState d n)
    (X : Fin B → Fin d → ℝ) : Fin B → Fin n → ℝ :=
  gradWrtPreActs
    (gradWrtCodes l1_alpha (stepDXhat s X) (forwardDec s) (stepCodes s X))
    (preActs s.params.encW s.params.encB X)

/-- Embeds one iteration of the run_single_go training loop (src/run.py
lines 457-471): noisy batch, forward pass (normalizing the decoder in
place), backward pass, optimizer.step().  The Adam step acts on the
post-forward (normalized) decoder value, and nothing renormalizes the
decoder after the step. -/
noncomputable def trainStep {d n B : ℕ} (lr l1_alpha noise_level : ℝ)
    (s : TrainState d n) (batch noise : Fin B → Fin d → ℝ) : TrainState d n :=
  { params :=
    { encW := fun j i => (adamUpdate lr (s.stepCount + 1) (s.params.encW j i)
        (s.mEncW j i) (s.vEncW j i)
        (gradWrtEncW (stepDZ l1_alpha s (stepInput noise_level batch noise))
          (stepInput noise_level batch noise) j i)).1
      encB := fun j => (adamUpdate lr (s.stepCount + 1) (s.params.encB j)
        (s.mEncB j) (s.vEncB j)
        (gradWrtEncB (stepDZ l1_alpha s (stepInput noise_level batch noise))
          (stepInput noise_level batch noise) j)).1
      decW := fun i j => (adamUpdate lr (s.stepCount + 1) (forwardDec s i j)
        (s.mDecW i j) (s.vDecW i j)
        (stepGDecW s (stepInput noise_level batch noise) i j)).1 }
    mEncW := fun j i => (adamUpdate lr (s.stepCount + 1) (s.params.encW j i)
      (s.mEncW j i) (s.vEncW j i)
      (gradWrtEncW (stepDZ l1_alpha s (stepInput noise_level batch noise))
        (stepInput noise_level batch noise) j i)).2.1
    vEncW := fun j i => (adamUpdate lr (s.stepCount + 1) (s.params.encW j i)
      (s.mEncW j i) (s.vEncW j i)
      (gradWrtEncW (stepDZ l1_alpha s (stepInput noise_level batch noise))
        (stepInput noise_level batch noise) j i)).2.2
    mEncB := fun j => (adamUpdate lr (s.stepCount + 1) (s.params.encB j)
      (s.mEncB j) (s.vEncB j)
      (gradWrtEncB (stepDZ l1_alpha s (stepInput noise_level batch noise))
        (stepInput noise_level batch noise) j)).2.1
    vEncB := fun j => (adamUpdate lr (s.stepCount + 1) (s.params.encB j)
      (s.mEncB j) (s.vEncB j)
      (gradWrtEncB (stepDZ l1_alpha s (stepInput noise_level batch noise))
        (stepInput noise_level batch noise) j)).2.2
    mDecW := fun i j => (adamUpdate lr (s.stepCount + 1) (forwardDec s i j)
      (s.mDecW i j) (s.vDecW i j)
      (stepGDecW s (stepInput noise_level batch noise) i j)).2.1
    vDecW := fun i j => (adamUpdate lr (s.stepCount + 1) (forwardDec s i j)
      (s.mDecW i j) (s.vDecW i j)
      (stepGDecW s (stepInput noise_level batch noise) i j)).2.2
    stepCount := s.stepCount + 1 }

/-- Claim C1, amended: the unit-norm projection of the decoder happens
inside the forward pass — immediately after any forward call, every
decoder column (dictionary element) whose stored norm is at least the
normalize eps 1e-12 has L2 norm exactly 1 in the returned parameters.
The projection is not reapplied after the optimizer step. -/
theorem c1_unit_norm_at_forward {d n B : ℕ} (p : AEParams d n)
    (X : Fin B → Fin d → ℝ) (j : Fin n)
    (h : (1 : ℝ) / 10 ^ 12 ≤ l2norm (decCol p.decW j)) :
    l2norm (decCol (forwardAE p X).2.2.decW j) = 1 := by
  show l2norm (decCol (normalizeCols p.decW) j) = 1
  have hcol : decCol (normalizeCols p.decW) j
      = fun i => decCol p.decW j i
          / max (l2norm (decCol p.decW j)) (1 / 10 ^ 12) := rfl
  rw [hcol]
  exact l2norm_clamped_normalize (decCol p.decW j) _ (by norm_num) h

/-- Witness for the amended statement of C1 at a concrete 1-dimensional model
with decoder weight 1. -/
theorem c1_unit_norm_at_forward_witness :
    l2norm (decCol (forwardAE (B := 1)
      (AEParams.mk (fun (_ : Fin 1) (_ : Fin 1) => (2 : ℝ)) (fun _ => 0)
        (fun _ _ => 1)) (fun _ _ => 1)).2.2.decW 0) = 1 := by
  apply c1_unit_norm_at_forward
  show (1 : ℝ) / 10 ^ 12 ≤ l2norm (decCol (fun (_ : Fin 1) (_ : Fin 1) => (1 : ℝ)) 0)
  have h1 : l2norm (decCol (fun (_ : Fin 1) (_ : Fin 1) => (1 : ℝ)) 0) = 1 := by
    unfold l2norm decCol
    rw [Fin.sum_univ_one]
    show Real.sqrt ((1 : ℝ) ^ 2) = 1
    rw [one_pow, Real.sqrt_one]
  rw [h1]
  norm_num

/-- Claim C1, counterexample: one optimizer step breaks the unit norm.
From the state with encoder weight 2, zero bias and (already unit-norm)
decoder weight 1, on the constant batch 1 with no noise, learning rate
1/1000 and l1_alpha 0, the decoder column norm right after the Adam step
is below 1 - 1/2000 — far outside floating-point tolerance of 1, until
the next forward pass renormalizes it. -/
theorem c1_norm_broken_after_step :
    l2norm (decCol ((trainStep (B := 1) (1/1000) 0 0
      (initTrainState (AEParams.mk (fun (_ : Fin 1) (_ : Fin 1) => (2 : ℝ))
        (fun _ => 0) (fun _ _ => 1)))
      (fun _ _ => 1) (fun _ _ => 0)).params.decW) 0) < 1 - 1/2000 := by
  have hX : stepInput (d := 1) (B := 1) 0 (fun _ _ => 1) (fun _ _ => 0)
      = fun _ _ => 1 := by
    funext b i
    unfold stepInput
    ring
  have hone : l2norm (fun _ : Fin 1 => (1 : ℝ)) = 1 := by
    unfold l2norm
    rw [Fin.sum_univ_one]
    show Real.sqrt ((1 : ℝ) ^ 2) = 1
    rw [one_pow, Real.sqrt_one]
  have hdec1 : forwardDec (initTrainState
      (AEParams.mk (fun (_ : Fin 1) (_ : Fin 1) => (2 : ℝ)) (fun _ => 0)
        (fun _ _ => 1))) = fun _ _ => 1 := by
    funext i j
    show normalizeCols (fun _ _ => (1 : ℝ)) i j = 1
    unfold normalizeCols
    have hcol : decCol (fun (_ : Fin 1) (_ : Fin 1) => (1 : ℝ)) j
        = fun _ : Fin 1 => (1 : ℝ) := rfl
    rw [hcol, hone, max_eq_left (by norm_num)]
    norm_num
  have hc : stepCodes (B := 1) (initTrainState
      (AEParams.mk (fun (_ : Fin 1) (_ : Fin 1) => (2 : ℝ)) (fun _ => 0)
        (fun _ _ => 1))) (fun _ _ => 1) = fun _ _ => 2 := by
    funext b j
    show codesOf (fun _ _ => (2 : ℝ)) (fun _ => 0) (fun _ _ => 1) b j = 2
    unfold codesOf preActs relu
    rw [Fin.sum_univ_one]
    show max ((2 : ℝ) * 1 + 0) 0 = 2
    rw [max_eq_left (by norm_num)]
    norm_num
  have hxhat : stepXhat (B := 1) (initTrainState
      (AEParams.mk (fun (_ : Fin 1) (_ : Fin 1) => (2 : ℝ)) (fun _ => 0)
        (fun _ _ => 1))) (fun _ _ => 1) = fun _ _ => 2 := by
    funext b i
    unfold stepXhat
    rw [hdec1, hc]
    unfold decodeWith
    rw [Fin.sum_univ_one]
    norm_num
  have hdx : stepDXhat (B := 1) (initTrainState
      (AEParams.mk (fun (_ : Fin 1) (_ : Fin 1) => (2 : ℝ)) (fun _ => 0)
        (fun _ _ => 1))) (fun _ _ => 1) = fun _ _ => 2 := by
    funext b i
    unfold stepDXhat gradWrtXhat
    rw [hxhat]
    norm_num
  have hg : stepGDecW (B := 1) (initTrainState
      (AEParams.mk (fun (_ : Fin 1) (_ : Fin 1) => (2 : ℝ)) (fun _ => 0)
        (fun _ _ => 1))) (fun _ _ => 1) = fun _ _ => 4 := by
    funext i j
    unfold stepGDecW gradWrtDecW
    rw [hdx, hc]
    rw [Fin.sum_univ_one]
    norm_num
  have hsqrt16 : Real.sqrt 16 = 4 := by
    rw [show (16 : ℝ) = 4 ^ 2 by norm_num, Real.sqrt_sq (by norm_num)]
  have hadam : (adamUpdate (1/1000) 1 1 0 0 4).1
      = 1 - (1/1000) * 4 / (4 + 1/10^8) := by
    unfold adamUpdate
    show (1 : ℝ) - (1/1000) * ((9/10 * 0 + (1 - 9/10) * 4) / (1 - (9/10 : ℝ) ^ 1))
        / (Real.sqrt ((999/1000 * 0 + (1 - 999/1000) * 4 ^ 2)
            / (1 - (999/1000 : ℝ) ^ 1)) + 1 / 10 ^ 8) = _
    rw [show ((999:ℝ)/1000 * 0 + (1 - 999/1000) * 4 ^ 2)
        / (1 - (999/1000 : ℝ) ^ 1) = 16 by norm_num]
    rw [hsqrt16]
    norm_num
  have hW : (trainStep (B := 1) (1/1000) 0 0
      (initTrainState (AEParams.mk (fun (_ : Fin 1) (_ : Fin 1) => (2 : ℝ))
        (fun _ => 0) (fun _ _ => 1)))
      (fun _ _ => 1) (fun _ _ => 0)).params.decW
      = fun _ _ => 1 - (1/1000) * 4 / (4 + 1/10^8) := by
    funext i j
    simp only [trainStep, hX, hg, hdec1]
    show (adamUpdate (1/1000) 1 1 0 0 4).1 = _
    rw [hadam]
  rw [hW]
  unfold l2norm
  rw [show decCol (fun (_ : Fin 1) (_ : Fin 1) =>
      (1 - (1/1000) * 4 / (4 + 1/10^8) : ℝ)) 0
    = fun _ : Fin 1 => (1 - (1/1000) * 4 / (4 + 1/10^8) : ℝ) from rfl]
  rw [Fin.sum_univ_one]
  show Real.sqrt ((1 - (1/1000) * 4 / (4 + 1/10^8) : ℝ) ^ 2) < 1 - 1/2000
  rw [Real.sqrt_sq_eq_abs, abs_of_nonneg (by norm_num)]
  norm_num

end SparseCoding
